import Mathlib

/-!
Verification of the reentryfs analysis pipeline (`evaluation/analyse.py`).

The script loads a CSV of experiment runs into a pandas DataFrame, prints a
summary (`summarize`), saves two bar charts (`plot_status`, `plot_blocked`),
and prints descriptive statistics with an optional LaTeX table
(`print_stats`).  We embed the DataFrame as a list of `Run` records.  Cells
may be missing (pandas NaN), hence `Option` fields; pandas aggregation
(`value_counts`, `describe`) drops missing values, while `len(df)` counts
all rows.  Numeric values are modelled as rationals.
-/

namespace ReentryFS

/-- One row of the metrics CSV: columns `Status`, `BlockedThreads`,
`WaitQueue`.  `none` models a missing cell (pandas NaN). -/
structure Run where
  status : Option String
  blockedThreads : Option ℚ
  waitQueue : Option ℚ
deriving DecidableEq, Repr

/-- The loaded DataFrame: an ordered sequence of rows. -/
abbrev Dataset := List Run

/-- The non-missing entries of the `Status` column, in row order. -/
def presentStatuses (df : Dataset) : List String :=
  df.filterMap (·.status)

/-- The non-missing entries of the `BlockedThreads` column, in row order. -/
def blockedColumn (df : Dataset) : List ℚ :=
  df.filterMap (·.blockedThreads)

/-- The non-missing entries of the `WaitQueue` column, in row order. -/
def waitColumn (df : Dataset) : List ℚ :=
  df.filterMap (·.waitQueue)

/-- Descending-count order on count pairs (`value_counts` display order). -/
def pairsDescSnd {α : Type} : α × ℕ → α × ℕ → Prop := fun p q => q.2 ≤ p.2

instance {α : Type} : DecidableRel (@pairsDescSnd α) := fun p q => Nat.decLe q.2 p.2

instance {α : Type} : IsTotal (α × ℕ) pairsDescSnd :=
  ⟨fun a b => (le_total a.2 b.2).symm⟩

instance {α : Type} : IsTrans (α × ℕ) pairsDescSnd :=
  ⟨fun _ _ _ hab hbc => le_trans hbc hab⟩

/-- Ascending order on the value component (`sort_index()` order). -/
def pairsAscFst : ℚ × ℕ → ℚ × ℕ → Prop := fun p q => p.1 ≤ q.1

instance : DecidableRel pairsAscFst := fun p q => Rat.instDecidableLe p.1 q.1

instance : IsTotal (ℚ × ℕ) pairsAscFst := ⟨fun a b => le_total a.1 b.1⟩

instance : IsTrans (ℚ × ℕ) pairsAscFst := ⟨fun _ _ _ => le_trans⟩

/-- The distinct values of a list, each paired with its number of
occurrences (the unsorted content of `Series.value_counts()`). -/
def countsOf {α : Type} [DecidableEq α] (xs : List α) : List (α × ℕ) :=
  xs.dedup.map (fun v => (v, xs.count v))

/-- `Series.value_counts()`: occurrence counts of the distinct non-missing
values, sorted by descending count (ties in implementation-defined order). -/
def value_counts {α : Type} [DecidableEq α] (xs : List α) : List (α × ℕ) :=
  List.insertionSort pairsDescSnd (countsOf xs)

/-- `df["Status"].value_counts()` as computed inside `summarize`. -/
def statusCounts (df : Dataset) : List (String × ℕ) :=
  value_counts (presentStatuses df)

/-- `total = len(df)`: the number of rows, missing cells included. -/
def total_runs (df : Dataset) : ℕ :=
  df.length

/-- `deadlocks = status_counts.get("DEADLOCK", 0)`. -/
def deadlock_count (df : Dataset) : ℕ :=
  (List.lookup "DEADLOCK" (statusCounts df)).getD 0

/-- `rate = (deadlocks / total) * 100 if total else 0`. -/
def rate (df : Dataset) : ℚ :=
  if total_runs df ≠ 0 then
    ((deadlock_count df : ℚ) / (total_runs df : ℚ)) * 100
  else 0

/-- Python float formatting `"%.1f"`: one digit after the decimal point. -/
def fmt1 (q : ℚ) : String :=
  let m : ℤ := round (q * 10)
  (if m < 0 then "-" else "") ++ toString (m.natAbs / 10) ++ "." ++
    toString (m.natAbs % 10)

/-- The rate as rendered by `summarize`: one decimal place, trailing `%`. -/
def rateDisplay (df : Dataset) : String :=
  fmt1 (rate df) ++ "%"

/-- `"-" * 40`. -/
def dashes40 : String := "----------------------------------------"

/-- `"-" * 20`. -/
def dashes20 : String := "--------------------"

/-- The `Status Breakdown` block (`status_counts.to_string()`), one line per
label in `value_counts` order.  Column alignment done by pandas is abstracted
into a single separating space. -/
def statusBreakdownLines (counts : List (String × ℕ)) : List String :=
  counts.map (fun p => p.1 ++ " " ++ toString p.2)

/-- The console lines printed by `summarize`, in order.  A `print` whose
argument starts with a newline contributes an empty line first. -/
def summarizeLines (df : Dataset) : List String :=
  [dashes40,
   "       AB-BA DEADLOCK METRICS       ",
   dashes40,
   "Total Runs:              " ++ toString (total_runs df),
   "Successful Deadlocks:    " ++ toString (deadlock_count df),
   "Deadlock Success Rate:   " ++ rateDisplay df,
   "",
   "Status Breakdown:"] ++
  statusBreakdownLines (statusCounts df) ++ [dashes40]

/-- The dataset of the spec scenario: rows
`("DEADLOCK",2,5), ("TIMEOUT",0,0), ("DEADLOCK",1,3)`. -/
def dfScenario : Dataset :=
  [⟨some "DEADLOCK", some 2, some 5⟩,
   ⟨some "TIMEOUT", some 0, some 0⟩,
   ⟨some "DEADLOCK", some 1, some 3⟩]

/-- A dataset whose only status label is `TIMEOUT`. -/
def dfTimeout : Dataset :=
  [⟨some "TIMEOUT", some 0, some 0⟩]

/-- A dataset with one row whose `Status` cell is missing. -/
def dfMissing : Dataset :=
  [⟨some "DEADLOCK", some 1, some 1⟩, ⟨none, some 0, some 0⟩]

/-- `counts = df["Status"].value_counts()` recomputed inside `plot_status`;
the bars are drawn in this order with height `count`. -/
def plot_status_counts (df : Dataset) : List (String × ℕ) :=
  value_counts (presentStatuses df)

/-- The numeric text labels `str(v)` placed above the bars, in bar order. -/
def plot_status_labels (df : Dataset) : List String :=
  (plot_status_counts df).map (fun p => toString p.2)

/-- The title `f"Race Condition Outcome (N={len(df)})"` of the status chart,
built without the formatted-string braces. -/
def plot_status_title (df : Dataset) : String :=
  "Race Condition Outcome (N=" ++ toString df.length ++ ")"

/-- `counts = df["BlockedThreads"].value_counts().sort_index()`: the bars of
the blocked-threads chart, `(value, frequency)` in ascending value order. -/
def plot_blocked_counts (df : Dataset) : List (ℚ × ℕ) :=
  List.insertionSort pairsAscFst (value_counts (blockedColumn df))

/-- A dataset whose `BlockedThreads` column is `[0,0,1,1,1,3]`. -/
def dfBlocked : Dataset :=
  [⟨none, some 0, none⟩, ⟨none, some 0, none⟩, ⟨none, some 1, none⟩,
   ⟨none, some 1, none⟩, ⟨none, some 1, none⟩, ⟨none, some 3, none⟩]

/-- `INPUT_FILE`: the metrics CSV under the project-root artefacts
directory; `root` models the runtime-determined `PROJECT_ROOT`. -/
def INPUT_FILE (root : String) : String :=
  root ++ "/artefacts/abba_metrics.csv"

/-- `OUTPUT_DIR`: the artefacts directory. -/
def OUTPUT_DIR (root : String) : String :=
  root ++ "/artefacts"

/-- The diagnostic printed by `load_data` when the input file is missing. -/
def missingMsg (root : String) : String :=
  "Error: Missing " ++ INPUT_FILE root ++ ". Run collect_metrics.sh first."

/-- `load_data()`.  The filesystem at `INPUT_FILE` is modelled by `fs`:
`none` when the file does not exist, `some df` when it exists and parses to
`df`.  Returns the printed lines and the optional DataFrame. -/
def load_data (root : String) (fs : Option Dataset) : List String × Option Dataset :=
  match fs with
  | none => ([missingMsg root], none)
  | some df => ([], some df)

/-- A chart image file: its path and the numeric content it encodes. -/
inductive ChartFile where
  | statusChart (path : String) (bars : List (String × ℕ))
      (labels : List String) (title : String)
  | blockedChart (path : String) (bars : List (ℚ × ℕ)) (title : String)
deriving DecidableEq

/-- The image file written by `plot_status`. -/
def plot_status_file (root : String) (df : Dataset) : ChartFile :=
  .statusChart (OUTPUT_DIR root ++ "/status_distribution.png")
    (plot_status_counts df) (plot_status_labels df) (plot_status_title df)

/-- The save-confirmation line printed by `plot_status`. -/
def plot_status_lines (root : String) : List String :=
  ["[+] Saved plot: " ++ OUTPUT_DIR root ++ "/status_distribution.png"]

/-- The image file written by `plot_blocked`. -/
def plot_blocked_file (root : String) (df : Dataset) : ChartFile :=
  .blockedChart (OUTPUT_DIR root ++ "/blocked_threads.png")
    (plot_blocked_counts df) "Blocked Threads in D-State per Run"

/-- The save-confirmation line printed by `plot_blocked`. -/
def plot_blocked_lines (root : String) : List String :=
  ["[+] Saved plot: " ++ OUTPUT_DIR root ++ "/blocked_threads.png"]

/-- The diagnostic printed when `stats.to_latex` raises. -/
def latexFailLine : String := "[!] Could not generate LaTeX code."

/-- Console lines printed by `print_stats`.  The pandas string rendering of
the rounded describe-table is abstracted as `table`; `latexRes` is the
outcome of evaluating `stats.to_latex(...)`, which may raise
(`Except.error`).  The two header lines of the LaTeX section print before
`to_latex` is evaluated, so they appear on both paths; on failure the
`except` handler prints the diagnostic instead of the table. -/
def print_stats_lines (table : String) (latexRes : Except Unit String) : List String :=
  ["", "[Summary Statistics]", dashes20, table, "", "[LaTeX Table Code]", dashes20] ++
  (match latexRes with
   | .ok s => [s]
   | .error _ => [latexFailLine]) ++
  [dashes20]

/-- The pandas behaviours `main` depends on but the claims leave abstract:
the console rendering of the describe-table and the outcome of
`to_latex`. -/
structure PandasEnv where
  renderTable : Dataset → String
  latex : Dataset → Except Unit String

/-- Everything one invocation writes: console lines and image files. -/
structure RunOutput where
  console : List String
  files : List ChartFile
deriving DecidableEq

/-- `main()`: load, and on success run summarize, both plots and
print_stats in order; on a missing file print only the diagnostic. -/
def main (env : PandasEnv) (root : String) (fs : Option Dataset) : RunOutput :=
  match load_data root fs with
  | (diag, none) => ⟨diag, []⟩
  | (diag, some df) =>
    ⟨diag ++ summarizeLines df ++ plot_status_lines root ++
       plot_blocked_lines root ++
       print_stats_lines (env.renderTable df) (env.latex df),
     [plot_status_file root df, plot_blocked_file root df]⟩

/-- The phases of one `main()` invocation, in program order. -/
inductive Phase where
  | start
  | loaded
  | summarized
  | statusPlotted
  | blockedPlotted
  | finished
deriving DecidableEq

/-- The observable state of one invocation: current phase, the input file
contents, the loaded DataFrame, and everything written so far. -/
structure PState where
  phase : Phase
  fsIn : Option Dataset
  db : Option Dataset
  console : List String
  files : List ChartFile
deriving DecidableEq

/-- The state before `main()` starts, over input file contents `fs`. -/
def initState (fs : Option Dataset) : PState :=
  ⟨Phase.start, fs, none, [], []⟩

/-- Small-step semantics of `main()`: load, then summarize, plot twice and
print statistics, each step appending its console lines and files.  A
missing input file jumps straight to `finished` with only the diagnostic. -/
inductive PipeStep (env : PandasEnv) (root : String) : PState → PState → Prop where
  | loadMissing (s : PState) (h : s.phase = Phase.start) (hfs : s.fsIn = none) :
      PipeStep env root s
        { s with
          phase := Phase.finished
          console := s.console ++ [missingMsg root] }
  | loadOk (s : PState) (df : Dataset) (h : s.phase = Phase.start)
      (hfs : s.fsIn = some df) :
      PipeStep env root s
        { s with
          phase := Phase.loaded
          db := some df }
  | summarizeStep (s : PState) (df : Dataset) (h : s.phase = Phase.loaded)
      (hdb : s.db = some df) :
      PipeStep env root s
        { s with
          phase := Phase.summarized
          console := s.console ++ summarizeLines df }
  | plotStatusStep (s : PState) (df : Dataset) (h : s.phase = Phase.summarized)
      (hdb : s.db = some df) :
      PipeStep env root s
        { s with
          phase := Phase.statusPlotted
          console := s.console ++ plot_status_lines root
          files := s.files ++ [plot_status_file root df] }
  | plotBlockedStep (s : PState) (df : Dataset) (h : s.phase = Phase.statusPlotted)
      (hdb : s.db = some df) :
      PipeStep env root s
        { s with
          phase := Phase.blockedPlotted
          console := s.console ++ plot_blocked_lines root
          files := s.files ++ [plot_blocked_file root df] }
  | statsStep (s : PState) (df : Dataset) (h : s.phase = Phase.blockedPlotted)
      (hdb : s.db = some df) :
      PipeStep env root s
        { s with
          phase := Phase.finished
          console := s.console ++
            print_stats_lines (env.renderTable df) (env.latex df) }

/-- An environment for witness runs: empty table, failing `to_latex`. -/
def env0 : PandasEnv := ⟨fun _ => "", fun _ => Except.error ()⟩

/-- The final state of a missing-file run, written as a literal. -/
def s_missing : PState := ⟨Phase.finished, none, none, [missingMsg "r"], []⟩

/-- The final state of a missing-file run, written as the step's update. -/
def s_missingB : PState :=
  { initState none with
    phase := Phase.finished
    console := (initState none).console ++ [missingMsg "r"] }

/-- The column values in ascending order (basis of pandas quantiles). -/
def sortedVals (xs : List ℚ) : List ℚ :=
  List.insertionSort (· ≤ ·) xs

/-- The arithmetic mean as pandas computes it: sum over length. -/
def mean (xs : List ℚ) : ℚ :=
  xs.sum / (xs.length : ℚ)

/-- Sample variance with one delta degree of freedom (pandas `std` squared). -/
def sampleVar (xs : List ℚ) : ℚ :=
  (xs.map (fun x => (x - mean xs) ^ 2)).sum / ((xs.length : ℚ) - 1)

/-- Modelled from the spec: the mean written as the normalized sum. -/
def specMean (xs : List ℚ) : ℚ :=
  (1 / (xs.length : ℚ)) * xs.sum

/-- Modelled from the spec: sample variance in sum-of-squares form. -/
def specVar (xs : List ℚ) : ℚ :=
  ((xs.map (fun x => x ^ 2)).sum - (xs.length : ℚ) * specMean xs ^ 2) /
    ((xs.length : ℚ) - 1)

/-- The column minimum, computed by left fold as numpy reduces. -/
def colMin (xs : List ℚ) : ℚ :=
  match xs with
  | [] => 0
  | a :: t => t.foldl min a

/-- The column maximum, computed by left fold as numpy reduces. -/
def colMax (xs : List ℚ) : ℚ :=
  match xs with
  | [] => 0
  | a :: t => t.foldl max a

/-- Pandas linear-interpolation quantile: index `p * (n - 1)`, value
interpolated between the floor index and its successor when one exists. -/
def quantile (xs : List ℚ) (p : ℚ) : ℚ :=
  let s := sortedVals xs
  let h : ℚ := p * ((s.length : ℚ) - 1)
  let k : ℕ := (⌊h⌋).toNat
  let d : ℚ := h - (k : ℚ)
  if k + 1 < s.length then s.getD k 0 + d * (s.getD (k + 1) 0 - s.getD k 0)
  else s.getD k 0

/-- Modelled from the spec: percentile by linear interpolation, the clamped
convex combination of the two closest order statistics. -/
def specPercentile (xs : List ℚ) (p : ℚ) : ℚ :=
  let s := sortedVals xs
  let h : ℚ := p * ((s.length : ℚ) - 1)
  let j : ℕ := (⌊h⌋).toNat
  let g : ℚ := h - (j : ℚ)
  (1 - g) * s.getD j 0 + g * s.getD (min (j + 1) (s.length - 1)) 0

/-- Rounding to two decimal places on rationals. -/
def round2 (q : ℚ) : ℚ := ((round (100 * q) : ℤ) : ℚ) / 100

/-- Rounding to two decimal places on reals (for the standard deviation). -/
noncomputable def round2R (x : ℝ) : ℝ := ((round (100 * x) : ℤ) : ℝ) / 100

/-- One column of the `describe()` output. -/
structure ColSummary where
  count : ℚ
  mean : ℚ
  std : ℝ
  min : ℚ
  q25 : ℚ
  q50 : ℚ
  q75 : ℚ
  max : ℚ

/-- `Series.describe()` for one numeric column as pandas documents it:
count, mean, std (one delta degree of freedom), min, quartiles by linear
interpolation, max. -/
noncomputable def describeColumn (xs : List ℚ) : ColSummary :=
  { count := (xs.length : ℚ)
    mean := mean xs
    std := Real.sqrt ((sampleVar xs : ℚ) : ℝ)
    min := colMin xs
    q25 := quantile xs (1 / 4)
    q50 := quantile xs (1 / 2)
    q75 := quantile xs (3 / 4)
    max := colMax xs }

/-- `.round(2)` applied to each entry of a column summary. -/
noncomputable def roundSummary (c : ColSummary) : ColSummary :=
  ⟨round2 c.count, round2 c.mean, round2R c.std, round2 c.min,
   round2 c.q25, round2 c.q50, round2 c.q75, round2 c.max⟩

/-- Modelled from the spec: the NumericSummary of one column, every entry
rounded to two decimal places. -/
noncomputable def specNumericSummary (xs : List ℚ) : ColSummary :=
  { count := round2 (xs.length : ℚ)
    mean := round2 (specMean xs)
    std := round2R (Real.sqrt ((specVar xs : ℚ) : ℝ))
    min := round2 ((sortedVals xs).getD 0 0)
    q25 := round2 (specPercentile xs (1 / 4))
    q50 := round2 (specPercentile xs (1 / 2))
    q75 := round2 (specPercentile xs (3 / 4))
    max := round2 (((sortedVals xs).getLast?).getD 0) }

/-- The two rounded column summaries computed by
`df[["BlockedThreads", "WaitQueue"]].describe().round(2)`. -/
noncomputable def print_stats_summaries (df : Dataset) : ColSummary × ColSummary :=
  (roundSummary (describeColumn (blockedColumn df)),
   roundSummary (describeColumn (waitColumn df)))

/-- The keys of `countsOf` are exactly the distinct values. -/
theorem countsOf_keys {α : Type} [DecidableEq α] (xs : List α) :
    (countsOf xs).map Prod.fst = xs.dedup := by
  simp [countsOf, List.map_map, Function.comp_def]

/-- Sorting by descending count only permutes the count pairs. -/
theorem value_counts_perm {α : Type} [DecidableEq α] (xs : List α) :
    List.Perm (value_counts xs) (countsOf xs) :=
  List.perm_insertionSort _ _

/-- Each distinct value appears as a key at most once in `value_counts`. -/
theorem value_counts_keys_nodup {α : Type} [DecidableEq α] (xs : List α) :
    ((value_counts xs).map Prod.fst).Nodup := by
  have h := (value_counts_perm xs).map Prod.fst
  rw [countsOf_keys] at h
  exact h.nodup_iff.mpr (List.nodup_dedup xs)

/-- In an association list with distinct keys, `lookup` finds any member. -/
theorem lookup_of_mem_of_nodup {α β : Type} [DecidableEq α] :
    ∀ {l : List (α × β)} {k : α} {v : β},
      (l.map Prod.fst).Nodup → (k, v) ∈ l → List.lookup k l = some v := by
  intro l
  induction l with
  | nil => simp
  | cons p t ih =>
    obtain ⟨a, b⟩ := p
    intro k v hnd hm
    rw [List.map_cons, List.nodup_cons] at hnd
    rcases List.mem_cons.mp hm with he | ht
    · rw [show k = a from congrArg Prod.fst he]
      simp [List.lookup]
      exact (congrArg Prod.snd he).symm
    · have hk : k ≠ a := by
        intro hkp
        exact hnd.1 (hkp ▸ List.mem_map.mpr ⟨(k, v), ht, rfl⟩)
      simp [List.lookup, beq_eq_false_iff_ne.mpr hk]
      exact ih hnd.2 ht

/-- `lookup` misses keys that are not in the association list. -/
theorem lookup_eq_none_of_not_mem {α β : Type} [DecidableEq α] :
    ∀ {l : List (α × β)} {k : α}, k ∉ l.map Prod.fst → List.lookup k l = none := by
  intro l
  induction l with
  | nil => simp
  | cons p t ih =>
    obtain ⟨a, b⟩ := p
    intro k hk
    rw [List.map_cons] at hk
    have h1 : k ≠ a := fun h => hk (h ▸ List.mem_cons_self _ _)
    have h2 : k ∉ t.map Prod.fst := fun h => hk (List.mem_cons_of_mem _ h)
    simp [List.lookup, beq_eq_false_iff_ne.mpr h1]
    intro x y hxy hkx
    exact h2 (List.mem_map.mpr ⟨(x, y), hxy, hkx.symm⟩)

/-- Looking a value up in its `value_counts`, with default `0`, recovers its
occurrence count (also when the value is absent). -/
theorem value_counts_lookup {α : Type} [DecidableEq α] (xs : List α) (k : α) :
    (List.lookup k (value_counts xs)).getD 0 = xs.count k := by
  by_cases h : k ∈ xs
  · have hmem : (k, xs.count k) ∈ value_counts xs := by
      refine (value_counts_perm xs).mem_iff.mpr ?_
      exact List.mem_map.mpr ⟨k, List.mem_dedup.mpr h, rfl⟩
    rw [lookup_of_mem_of_nodup (value_counts_keys_nodup xs) hmem]
    rfl
  · have hk : k ∉ (value_counts xs).map Prod.fst := by
      have hp := (value_counts_perm xs).map Prod.fst
      rw [countsOf_keys] at hp
      intro hin
      exact h (List.mem_dedup.mp (hp.mem_iff.mp hin))
    rw [lookup_eq_none_of_not_mem hk]
    simp [List.count_eq_zero_of_not_mem h]

/-- The counts in `statusCounts` always sum to the number of rows whose
`Status` cell is present (`value_counts` drops missing cells). -/
theorem statusCounts_sum (df : Dataset) :
    ((statusCounts df).map Prod.snd).sum = (presentStatuses df).length := by
  have hperm := (value_counts_perm (presentStatuses df)).map Prod.snd
  rw [statusCounts, hperm.sum_eq]
  rw [countsOf, List.map_map]
  exact List.sum_map_count_dedup_eq_length (presentStatuses df)

/-- When every row has a `Status` value, the status column has one entry per
row. -/
theorem presentStatuses_length (df : Dataset)
    (h : ∀ r ∈ df, (r.status).isSome) :
    (presentStatuses df).length = df.length := by
  induction df with
  | nil => rfl
  | cons r t ih =>
    obtain ⟨s, hs⟩ := Option.isSome_iff_exists.mp (h r (List.mem_cons_self _ _))
    simp only [presentStatuses, List.filterMap_cons, hs, List.length_cons]
    rw [show (t.filterMap (·.status)) = presentStatuses t from rfl,
      ih (fun x hx => h x (List.mem_cons_of_mem _ hx))]

/-- C1: `summarize` computes `rate = 100 * deadlock_count / total_runs` when
`total_runs > 0` and `rate = 0` when `total_runs = 0`; the division is
guarded by the `if total` truthiness test, so no division-by-zero fault can
occur. -/
theorem summarize_rate_division_guard (df : Dataset) :
    (0 < total_runs df →
      rate df = 100 * (deadlock_count df : ℚ) / (total_runs df : ℚ)) ∧
    (total_runs df = 0 → rate df = 0) := by
  constructor
  · intro h
    have h0 : total_runs df ≠ 0 := Nat.pos_iff_ne_zero.mp h
    simp only [rate, if_pos h0]
    ring
  · intro h
    simp [rate, h]

/-- Witness for C1 at a nonempty and at an empty dataset. -/
theorem summarize_rate_division_guard_witness :
    (0 < total_runs dfScenario ∧
      rate dfScenario =
        100 * (deadlock_count dfScenario : ℚ) / (total_runs dfScenario : ℚ)) ∧
    (total_runs ([] : Dataset) = 0 ∧ rate ([] : Dataset) = 0) :=
  ⟨⟨by decide, (summarize_rate_division_guard dfScenario).1 (by decide)⟩,
   ⟨rfl, (summarize_rate_division_guard ([] : Dataset)).2 rfl⟩⟩

/-- C2: `deadlock_count` equals the occurrence count of the exact label
`"DEADLOCK"` in the Status column and is `0` when that label is absent; on
the scenario dataset `summarize` reports total 3, deadlocks 2, the rate
rendered `"66.7%"`, and status counts DEADLOCK 2, TIMEOUT 1. -/
theorem deadlock_count_exact_label :
    (∀ df : Dataset, deadlock_count df = (presentStatuses df).count "DEADLOCK") ∧
    (∀ df : Dataset, "DEADLOCK" ∉ presentStatuses df → deadlock_count df = 0) ∧
    total_runs dfScenario = 3 ∧
    deadlock_count dfScenario = 2 ∧
    rateDisplay dfScenario = "66.7%" ∧
    statusCounts dfScenario = [("DEADLOCK", 2), ("TIMEOUT", 1)] := by
  have hcount : ∀ df : Dataset,
      deadlock_count df = (presentStatuses df).count "DEADLOCK" := by
    intro df
    rw [deadlock_count]
    exact value_counts_lookup (presentStatuses df) "DEADLOCK"
  refine ⟨hcount, ?_, by decide, by decide, ?_, by decide⟩
  · intro df habs
    rw [hcount df]
    exact List.count_eq_zero_of_not_mem habs
  · have hd : deadlock_count dfScenario = 2 := by decide
    have ht : total_runs dfScenario = 3 := by decide
    have h : rate dfScenario = 200 / 3 := by rw [rate, ht, hd]; norm_num
    rw [rateDisplay, h]
    unfold fmt1
    norm_num [round_eq]
    decide

/-- Witness for C2 on a dataset without the `"DEADLOCK"` label. -/
theorem deadlock_count_exact_label_witness :
    "DEADLOCK" ∉ presentStatuses dfTimeout ∧ deadlock_count dfTimeout = 0 :=
  ⟨by decide, deadlock_count_exact_label.2.1 dfTimeout (by decide)⟩

/-- C3: under the data-model invariant that every Run carries a Status
value, the values of StatusCounts sum to `total_runs`. -/
theorem statusCounts_sum_eq_total (df : Dataset)
    (h : ∀ r ∈ df, (r.status).isSome) :
    ((statusCounts df).map Prod.snd).sum = total_runs df := by
  rw [statusCounts_sum, total_runs]
  exact presentStatuses_length df h

/-- Witness for C3 on the scenario dataset. -/
theorem statusCounts_sum_eq_total_witness :
    (∀ r ∈ dfScenario, (r.status).isSome) ∧
    ((statusCounts dfScenario).map Prod.snd).sum = total_runs dfScenario :=
  ⟨by decide, statusCounts_sum_eq_total dfScenario (by decide)⟩

/-- C10: the rate denominator is the raw row count `len(df)`, missing-Status
rows included, while StatusCounts only totals the rows whose Status is
present; so the rate is deadlocks over row count, not over the StatusCounts
sum. -/
theorem rate_denominator_is_row_count (df : Dataset) :
    (0 < df.length →
      rate df = 100 * (deadlock_count df : ℚ) / (df.length : ℚ)) ∧
    ((statusCounts df).map Prod.snd).sum = (presentStatuses df).length := by
  constructor
  · intro h
    have h0 : total_runs df ≠ 0 := Nat.pos_iff_ne_zero.mp h
    simp only [rate, if_pos h0]
    simp only [total_runs]
    ring
  · exact statusCounts_sum df

/-- Witness for C10 on a dataset with a missing Status cell: the denominator
is the row count 2, strictly larger than the StatusCounts sum 1. -/
theorem rate_denominator_is_row_count_witness :
    0 < dfMissing.length ∧
    rate dfMissing = 100 * (deadlock_count dfMissing : ℚ) / (dfMissing.length : ℚ) ∧
    ((statusCounts dfMissing).map Prod.snd).sum = 1 ∧
    dfMissing.length = 2 :=
  ⟨by decide, (rate_denominator_is_row_count dfMissing).1 (by decide),
   by decide, rfl⟩

/-- C5: the blocked-threads chart has one bar per distinct BlockedThreads
value with height its frequency, ordered left-to-right by strictly
increasing value; on the column `[0,0,1,1,1,3]` the bars are
`(0,2), (1,3), (3,1)` in that order. -/
theorem plot_blocked_bars_ascending :
    (∀ df : Dataset,
      List.Pairwise (fun p q : ℚ × ℕ => p.1 < q.1) (plot_blocked_counts df) ∧
      (∀ p ∈ plot_blocked_counts df, p.2 = (blockedColumn df).count p.1) ∧
      (∀ v ∈ blockedColumn df, v ∈ (plot_blocked_counts df).map Prod.fst)) ∧
    blockedColumn dfBlocked = [0, 0, 1, 1, 1, 3] ∧
    plot_blocked_counts dfBlocked = [(0, 2), (1, 3), (3, 1)] := by
  refine ⟨fun df => ?_, by decide, by decide⟩
  have hs : List.Sorted pairsAscFst (plot_blocked_counts df) :=
    List.sorted_insertionSort _ _
  have hperm : List.Perm (plot_blocked_counts df) (countsOf (blockedColumn df)) :=
    (List.perm_insertionSort _ _).trans (value_counts_perm _)
  have hndk : ((plot_blocked_counts df).map Prod.fst).Nodup := by
    have h := hperm.map Prod.fst
    rw [countsOf_keys] at h
    exact h.nodup_iff.mpr (List.nodup_dedup _)
  refine ⟨?_, ?_, ?_⟩
  · have hne : List.Pairwise (fun p q : ℚ × ℕ => p.1 ≠ q.1) (plot_blocked_counts df) :=
      List.pairwise_map.mp hndk
    exact (hs.and hne).imp (fun h => lt_of_le_of_ne h.1 h.2)
  · intro p hp
    have hm := hperm.mem_iff.mp hp
    obtain ⟨v, hv, hpv⟩ := List.mem_map.mp hm
    rw [← hpv]
  · intro v hv
    have hk := hperm.map Prod.fst
    rw [countsOf_keys] at hk
    exact hk.mem_iff.mpr (List.mem_dedup.mpr hv)

/-- Witness for C5: the bar `(3, 1)` of the scenario column has height equal
to the frequency of the value `3`. -/
theorem plot_blocked_bars_ascending_witness :
    ((3 : ℚ), 1) ∈ plot_blocked_counts dfBlocked ∧
    (((3 : ℚ), 1) : ℚ × ℕ).2 = (blockedColumn dfBlocked).count ((3 : ℚ), 1).1 :=
  ⟨by decide,
   (plot_blocked_bars_ascending.1 dfBlocked).2.1 ((3 : ℚ), 1) (by decide)⟩

/-- C9: the status chart draws its bars in descending occurrence-count order
(the same counts and order as the Summarizer breakdown), and the text label
above the i-th bar is exactly that bar's count. -/
theorem plot_status_descending_counts (df : Dataset) :
    List.Sorted pairsDescSnd (plot_status_counts df) ∧
    plot_status_counts df = statusCounts df ∧
    (∀ i : ℕ, (plot_status_labels df)[i]? =
      ((plot_status_counts df)[i]?).map (fun p => toString p.2)) ∧
    (∀ p ∈ plot_status_counts df, p.2 = (presentStatuses df).count p.1) := by
  refine ⟨List.sorted_insertionSort _ _, rfl, ?_, ?_⟩
  · intro i
    simp [plot_status_labels, List.getElem?_map]
  · intro p hp
    have hperm : List.Perm (plot_status_counts df) (countsOf (presentStatuses df)) :=
      value_counts_perm _
    obtain ⟨v, hv, hpv⟩ := List.mem_map.mp (hperm.mem_iff.mp hp)
    rw [← hpv]

/-- Witness for C9: the label of the first scenario bar is its count. -/
theorem plot_status_descending_counts_witness :
    ("DEADLOCK", 2) ∈ plot_status_counts dfScenario ∧
    (("DEADLOCK", 2) : String × ℕ).2 =
      (presentStatuses dfScenario).count ("DEADLOCK", 2).1 :=
  ⟨by decide,
   (plot_status_descending_counts dfScenario).2.2.2 ("DEADLOCK", 2) (by decide)⟩

/-- C4: on a missing input file `main` prints exactly one diagnostic line,
which names the missing path, writes no files, runs no downstream
component, and `load_data` returns `none` instead of raising. -/
theorem loader_missing_file_halts (env : PandasEnv) (root : String) :
    main env root none = ⟨[missingMsg root], []⟩ ∧
    (main env root none).console.length = 1 ∧
    (main env root none).files = [] ∧
    List.IsInfix (INPUT_FILE root).data (missingMsg root).data ∧
    load_data root none = ([missingMsg root], none) := by
  refine ⟨rfl, rfl, rfl, ?_, rfl⟩
  exact ⟨"Error: Missing ".data, ". Run collect_metrics.sh first.".data,
    by simp [missingMsg, String.data_append]⟩

/-- C7: a `to_latex` failure is swallowed: the output of `print_stats` is
identical to the success case up to and including the console table, the
failure path replaces the table by the single diagnostic line, the payload
of the exception is irrelevant, and both paths run to completion ending
with the closing dashes. -/
theorem print_stats_latex_fault_isolated (t s : String) (e : Unit) :
    print_stats_lines t (.error e) =
      ["", "[Summary Statistics]", dashes20, t, "", "[LaTeX Table Code]",
       dashes20, latexFailLine, dashes20] ∧
    print_stats_lines t (.ok s) =
      ["", "[Summary Statistics]", dashes20, t, "", "[LaTeX Table Code]",
       dashes20, s, dashes20] ∧
    (print_stats_lines t (.error e)).take 7 = (print_stats_lines t (.ok s)).take 7 ∧
    (print_stats_lines t (.error e)).getLast? = some dashes20 :=
  ⟨rfl, rfl, rfl, rfl⟩

/-- The pipeline is deterministic: a state has at most one successor. -/
theorem pipeStep_det {env : PandasEnv} {root : String} {s t₁ t₂ : PState}
    (h1 : PipeStep env root s t₁) (h2 : PipeStep env root s t₂) : t₁ = t₂ := by
  cases h1 <;> cases h2 <;> simp_all

/-- Finished states have no successor. -/
theorem finished_terminal {env : PandasEnv} {root : String} {s t : PState}
    (h : s.phase = Phase.finished) (hs : PipeStep env root s t) : False := by
  cases hs <;> simp_all

/-- From any state there is at most one reachable finished state. -/
theorem pipe_unique {env : PandasEnv} {root : String} {a b : PState}
    (h1 : Relation.ReflTransGen (PipeStep env root) a b)
    (hb : b.phase = Phase.finished) :
    ∀ c, Relation.ReflTransGen (PipeStep env root) a c →
      c.phase = Phase.finished → b = c := by
  induction h1 using Relation.ReflTransGen.head_induction_on with
  | refl =>
    intro c h2 hc
    rcases Relation.ReflTransGen.cases_head h2 with heq | ⟨d, hd, hdc⟩
    · exact heq
    · exact absurd hd (fun hstep => finished_terminal hb hstep)
  | head h' hrest ih =>
    intro c h2 hc
    rcases Relation.ReflTransGen.cases_head h2 with heq | ⟨d, hd, hdc⟩
    · subst heq
      exact absurd h' (fun hstep => finished_terminal hc hstep)
    · rw [pipeStep_det h' hd] at *
      exact ih c hdc hc

/-- C8: two complete runs of the pipeline over the same input file contents
(and the same library behaviour) end in states with identical console text
and identical chart files, bar data and labels included: every component is
a deterministic function of the Dataset. -/
theorem pipeline_two_runs_identical (env : PandasEnv) (root : String)
    (fs : Option Dataset) (s₁ s₂ : PState)
    (h1 : Relation.ReflTransGen (PipeStep env root) (initState fs) s₁)
    (hf1 : s₁.phase = Phase.finished)
    (h2 : Relation.ReflTransGen (PipeStep env root) (initState fs) s₂)
    (hf2 : s₂.phase = Phase.finished) :
    s₁.console = s₂.console ∧ s₁.files = s₂.files := by
  have h := pipe_unique h1 hf1 s₂ h2 hf2
  rw [h]
  exact ⟨rfl, rfl⟩

/-- Witness for C8: two concrete missing-file runs, their final states
written differently, have the same console text and files. -/
theorem pipeline_two_runs_identical_witness :
    s_missing.console = s_missingB.console ∧ s_missing.files = s_missingB.files :=
  pipeline_two_runs_identical env0 "r" none s_missing s_missingB
    (Relation.ReflTransGen.single (PipeStep.loadMissing (initState none) rfl rfl))
    rfl
    (Relation.ReflTransGen.single (PipeStep.loadMissing (initState none) rfl rfl))
    rfl

/-- Expanding the sum of squared deviations about any point. -/
theorem sum_sq_dev (xs : List ℚ) (m : ℚ) :
    (xs.map (fun x => (x - m) ^ 2)).sum =
      (xs.map (fun x => x ^ 2)).sum - 2 * m * xs.sum + (xs.length : ℚ) * m ^ 2 := by
  induction xs with
  | nil => simp
  | cons a t ih =>
    simp only [List.map_cons, List.sum_cons, ih, List.length_cons]
    push_cast
    ring

/-- The two mean formulations agree. -/
theorem mean_eq_specMean (xs : List ℚ) : mean xs = specMean xs := by
  rw [mean, specMean, div_eq_mul_inv, one_div, mul_comm]

/-- The deviation form and the sum-of-squares form of the sample variance
agree on nonempty columns. -/
theorem sampleVar_eq_specVar (xs : List ℚ) (h : xs.length ≠ 0) :
    sampleVar xs = specVar xs := by
  have hn : ((xs.length : ℚ)) ≠ 0 := Nat.cast_ne_zero.mpr h
  rw [sampleVar, specVar, sum_sq_dev, ← mean_eq_specMean]
  congr 1
  rw [mean]
  field_simp
  ring

/-- A fold by `min` returns its initial value or a list element. -/
theorem foldl_min_mem : ∀ (t : List ℚ) (a : ℚ), t.foldl min a = a ∨ t.foldl min a ∈ t
  | [], _ => Or.inl rfl
  | b :: t, a => by
    rcases foldl_min_mem t (min a b) with h | h
    · rcases min_choice a b with h2 | h2
      · left
        rw [List.foldl_cons, h, h2]
      · right
        rw [List.foldl_cons, h, h2]
        exact List.mem_cons_self _ _
    · right
      exact List.mem_cons_of_mem _ (by rw [List.foldl_cons]; exact h)

/-- A fold by `min` is bounded by its initial value. -/
theorem foldl_min_le_init : ∀ (t : List ℚ) (a : ℚ), t.foldl min a ≤ a
  | [], _ => le_refl _
  | b :: t, a => by
    rw [List.foldl_cons]
    exact le_trans (foldl_min_le_init t (min a b)) (min_le_left a b)

/-- A fold by `min` is bounded by every list element. -/
theorem foldl_min_le_mem : ∀ (t : List ℚ) (a y : ℚ), y ∈ t → t.foldl min a ≤ y
  | b :: t, a, y, hy => by
    rw [List.foldl_cons]
    rcases List.mem_cons.mp hy with rfl | ht
    · exact le_trans (foldl_min_le_init t (min a y)) (min_le_right a y)
    · exact foldl_min_le_mem t (min a b) y ht

/-- A fold by `max` returns its initial value or a list element. -/
theorem foldl_max_mem : ∀ (t : List ℚ) (a : ℚ), t.foldl max a = a ∨ t.foldl max a ∈ t
  | [], _ => Or.inl rfl
  | b :: t, a => by
    rcases foldl_max_mem t (max a b) with h | h
    · rcases max_choice a b with h2 | h2
      · left
        rw [List.foldl_cons, h, h2]
      · right
        rw [List.foldl_cons, h, h2]
        exact List.mem_cons_self _ _
    · right
      exact List.mem_cons_of_mem _ (by rw [List.foldl_cons]; exact h)

/-- A fold by `max` dominates its initial value. -/
theorem foldl_max_ge_init : ∀ (t : List ℚ) (a : ℚ), a ≤ t.foldl max a
  | [], _ => le_refl _
  | b :: t, a => by
    rw [List.foldl_cons]
    exact le_trans (le_max_left a b) (foldl_max_ge_init t (max a b))

/-- A fold by `max` dominates every list element. -/
theorem foldl_max_ge_mem : ∀ (t : List ℚ) (a y : ℚ), y ∈ t → y ≤ t.foldl max a
  | b :: t, a, y, hy => by
    rw [List.foldl_cons]
    rcases List.mem_cons.mp hy with rfl | ht
    · exact le_trans (le_max_right a y) (foldl_max_ge_init t (max a y))
    · exact foldl_max_ge_mem t (max a b) y ht

/-- The column minimum is a column value. -/
theorem colMin_mem (xs : List ℚ) (h : xs ≠ []) : colMin xs ∈ xs := by
  match xs with
  | [] => exact absurd rfl h
  | a :: t =>
    rw [colMin]
    rcases foldl_min_mem t a with he | hm
    · rw [he]
      exact List.mem_cons_self _ _
    · exact List.mem_cons_of_mem _ hm

/-- The column minimum is a lower bound. -/
theorem colMin_le (xs : List ℚ) (y : ℚ) (hy : y ∈ xs) : colMin xs ≤ y := by
  match xs with
  | a :: t =>
    rw [colMin]
    rcases List.mem_cons.mp hy with rfl | ht
    · exact foldl_min_le_init t y
    · exact foldl_min_le_mem t a y ht

/-- The column maximum is a column value. -/
theorem colMax_mem (xs : List ℚ) (h : xs ≠ []) : colMax xs ∈ xs := by
  match xs with
  | [] => exact absurd rfl h
  | a :: t =>
    rw [colMax]
    rcases foldl_max_mem t a with he | hm
    · rw [he]
      exact List.mem_cons_self _ _
    · exact List.mem_cons_of_mem _ hm

/-- The column maximum is an upper bound. -/
theorem colMax_ge (xs : List ℚ) (y : ℚ) (hy : y ∈ xs) : y ≤ colMax xs := by
  match xs with
  | a :: t =>
    rw [colMax]
    rcases List.mem_cons.mp hy with rfl | ht
    · exact foldl_max_ge_init t y
    · exact foldl_max_ge_mem t a y ht

/-- Sorting sorts. -/
theorem sortedVals_sorted (xs : List ℚ) : List.Sorted (· ≤ ·) (sortedVals xs) :=
  List.sorted_insertionSort _ _

/-- Sorting permutes the column. -/
theorem sortedVals_perm (xs : List ℚ) : List.Perm (sortedVals xs) xs :=
  List.perm_insertionSort _ _

/-- Sorting preserves the column length. -/
theorem sortedVals_length (xs : List ℚ) : (sortedVals xs).length = xs.length :=
  (sortedVals_perm xs).length_eq

/-- The smallest order statistic is the column minimum. -/
theorem sorted_head_eq_colMin (xs : List ℚ) (hne : xs ≠ []) :
    (sortedVals xs).getD 0 0 = colMin xs := by
  have hsn : sortedVals xs ≠ [] := by
    intro h
    exact hne (List.eq_nil_of_length_eq_zero (by rw [← sortedVals_length xs, h]; rfl))
  obtain ⟨a, t, hat⟩ := List.exists_cons_of_ne_nil hsn
  have hmem : ∀ y ∈ xs, a ≤ y := by
    intro y hy
    have hy2 : y ∈ a :: t := by
      rw [← hat]
      exact (sortedVals_perm xs).mem_iff.mpr hy
    rcases List.mem_cons.mp hy2 with rfl | ht
    · exact le_refl _
    · have hs := hat ▸ sortedVals_sorted xs
      exact (List.sorted_cons.mp hs).1 y ht
  have hain : a ∈ xs := by
    have : a ∈ sortedVals xs := hat ▸ List.mem_cons_self a t
    exact (sortedVals_perm xs).mem_iff.mp this
  rw [hat]
  simp only [List.getD_cons_zero]
  exact le_antisymm (hmem _ (colMin_mem xs hne)) (colMin_le xs a hain)

/-- Every element of a sorted list is at most its last element. -/
theorem sorted_le_getLast :
    ∀ {s : List ℚ}, List.Sorted (· ≤ ·) s → ∀ y ∈ s, y ≤ (s.getLast?).getD 0
  | [], _, y, hy => by simp at hy
  | [a], _, y, hy => by
    rcases List.mem_singleton.mp hy with rfl
    simp
  | a :: b :: t, hs, y, hy => by
    rw [List.getLast?_cons_cons]
    rcases List.mem_cons.mp hy with rfl | ht
    · have hab : y ≤ b := (List.sorted_cons.mp hs).1 b (List.mem_cons_self _ _)
      exact le_trans hab
        (sorted_le_getLast (List.sorted_cons.mp hs).2 b (List.mem_cons_self _ _))
    · exact sorted_le_getLast (List.sorted_cons.mp hs).2 y ht

/-- The last element of a nonempty list is a member. -/
theorem getLast_getD_mem :
    ∀ {s : List ℚ}, s ≠ [] → (s.getLast?).getD 0 ∈ s
  | [], h => absurd rfl h
  | [a], _ => by simp
  | a :: b :: t, _ => by
    rw [List.getLast?_cons_cons]
    exact List.mem_cons_of_mem _ (getLast_getD_mem (List.cons_ne_nil b t))

/-- The largest order statistic is the column maximum. -/
theorem sorted_getLast_eq_colMax (xs : List ℚ) (hne : xs ≠ []) :
    ((sortedVals xs).getLast?).getD 0 = colMax xs := by
  have hsn : sortedVals xs ≠ [] := by
    intro h
    exact hne (List.eq_nil_of_length_eq_zero (by rw [← sortedVals_length xs, h]; rfl))
  have hlast_mem : ((sortedVals xs).getLast?).getD 0 ∈ xs :=
    (sortedVals_perm xs).mem_iff.mp (getLast_getD_mem hsn)
  have hub : ∀ y ∈ xs, y ≤ ((sortedVals xs).getLast?).getD 0 := by
    intro y hy
    exact sorted_le_getLast (sortedVals_sorted xs) y
      ((sortedVals_perm xs).mem_iff.mpr hy)
  exact le_antisymm (colMax_ge xs _ hlast_mem) (hub _ (colMax_mem xs hne))

/-- The pandas quantile and the spec percentile agree on nonempty columns
for probabilities up to one. -/
theorem quantile_eq_specPercentile (xs : List ℚ) (p : ℚ) (hp1 : p ≤ 1)
    (hne : xs ≠ []) : quantile xs p = specPercentile xs p := by
  simp only [quantile, specPercentile]
  set s := sortedVals xs with hs
  set n := s.length with hn
  have hn1 : 1 ≤ n := by
    rw [hn, hs, sortedVals_length]
    exact List.length_pos.mpr hne
  set h : ℚ := p * ((n : ℚ) - 1) with hh
  set k : ℕ := (⌊h⌋).toNat with hk
  by_cases hb : k + 1 < n
  · rw [if_pos hb]
    have hmin : min (k + 1) (n - 1) = k + 1 :=
      min_eq_left (Nat.le_sub_one_of_lt hb)
    rw [hmin]
    ring
  · rw [if_neg hb]
    have hnn : (0 : ℚ) ≤ (n : ℚ) - 1 := by
      have h1 := (Nat.one_le_cast (α := ℚ)).mpr hn1
      linarith
    have hub : h ≤ (n : ℚ) - 1 := by
      rw [hh]
      calc p * ((n : ℚ) - 1) ≤ 1 * ((n : ℚ) - 1) :=
        mul_le_mul_of_nonneg_right hp1 hnn
        _ = (n : ℚ) - 1 := one_mul _
    have hcast : ((n - 1 : ℕ) : ℚ) = (n : ℚ) - 1 := by
      have h2 : ((n - 1 : ℕ) : ℚ) = (n : ℚ) - ((1 : ℕ) : ℚ) := Nat.cast_sub hn1
      simpa using h2
    have hkle : k ≤ n - 1 := by
      rw [hk, Int.toNat_le]
      have hfl : ⌊h⌋ ≤ ⌊((n - 1 : ℕ) : ℚ)⌋ := Int.floor_mono (by rw [hcast]; exact hub)
      rw [Int.floor_natCast] at hfl
      exact_mod_cast hfl
    have hke : k = n - 1 := le_antisymm hkle (by omega)
    rw [← hke, min_eq_right (Nat.le_succ k)]
    ring

/-- The rounded pandas describe-summary equals the spec NumericSummary on
columns with at least two values. -/
theorem describe_matches (xs : List ℚ) (h2 : 2 ≤ xs.length) :
    roundSummary (describeColumn xs) = specNumericSummary xs := by
  have hne : xs ≠ [] := by
    intro h
    rw [h] at h2
    simp at h2
  have h0 : xs.length ≠ 0 := by omega
  simp only [roundSummary, describeColumn, specNumericSummary, ColSummary.mk.injEq]
  refine ⟨trivial, ?_, ?_, ?_, ?_, ?_, ?_, ?_⟩
  · rw [mean_eq_specMean]
  · rw [sampleVar_eq_specVar xs h0]
  · rw [sorted_head_eq_colMin xs hne]
  · rw [quantile_eq_specPercentile xs (1 / 4) (by norm_num) hne]
  · rw [quantile_eq_specPercentile xs (1 / 2) (by norm_num) hne]
  · rw [quantile_eq_specPercentile xs (3 / 4) (by norm_num) hne]
  · rw [sorted_getLast_eq_colMax xs hne]

/-- C6: for each of the two numeric columns, the statistics printed by
`print_stats` are count, mean, sample standard deviation, minimum, the
25th/50th/75th percentile by linear interpolation, and maximum, each
rounded to two decimal places — stated as equality with an independently
spec-worded summary (mean as normalized sum, variance in sum-of-squares
form, percentiles in clamped convex-combination form, min/max as order
statistics of the sorted column). -/
theorem print_stats_matches_spec (df : Dataset) :
    (2 ≤ (blockedColumn df).length →
      (print_stats_summaries df).1 = specNumericSummary (blockedColumn df)) ∧
    (2 ≤ (waitColumn df).length →
      (print_stats_summaries df).2 = specNumericSummary (waitColumn df)) :=
  ⟨fun h => describe_matches _ h, fun h => describe_matches _ h⟩

/-- Witness for C6 on the scenario dataset, both columns of length 3. -/
theorem print_stats_matches_spec_witness :
    (2 ≤ (blockedColumn dfScenario).length ∧
      (print_stats_summaries dfScenario).1 =
        specNumericSummary (blockedColumn dfScenario)) ∧
    (2 ≤ (waitColumn dfScenario).length ∧
      (print_stats_summaries dfScenario).2 =
        specNumericSummary (waitColumn dfScenario)) :=
  ⟨⟨by decide, (print_stats_matches_spec dfScenario).1 (by decide)⟩,
   ⟨by decide, (print_stats_matches_spec dfScenario).2 (by decide)⟩⟩

end ReentryFS

